import Mathlib

/-!
Verification of the per-user memory record store exposed by
`src/api/server.ts` (the `memory.remember`, `memory.forget` and
`memory.recall` handlers over a JSON-document store).

The request handlers and the three core operations (Append / RemoveAt /
Recall, the bodies of the try blocks in the source) are embedded from the
source.  The backing document store is an external collaborator (a remote
Redis-JSON client, not part of this repository), so its primitives are
modelled from the boundary contract in section 4.3 of the design document:
`exists`, `getDocument`, `setDocument`, `appendToArray`, `removeFromArray`.
-/

namespace MemoryBank

/-- JSON values, the shape of documents held by the backing store. -/
inductive Json where
  | null : Json
  | bool (b : Bool) : Json
  | num (n : Int) : Json
  | str (s : String) : Json
  | arr (elems : List Json) : Json
  | obj (fields : List (String × Json)) : Json

/-- The backing document store: a key-value map from storage keys to JSON
documents; `none` means the key is absent. -/
def Store : Type := String → Option Json

/-- A store with no keys. -/
def emptyStore : Store := fun _ => none

/-- Key deriver, from `getMemoryKey` in `src/api/server.ts`:
`memory:` followed by the user identity, verbatim. -/
def getMemoryKey (userEmail : String) : String := "memory:" ++ userEmail

/-- Identity resolver, from `getUser` in `src/api/server.ts`: reads the
`x-user-email` header from request metadata, `none` when absent. -/
def getUser (headers : String → Option String) : Option String :=
  headers "x-user-email"

/-- Modelled from the spec: the store primitive `exists(key) -> bool`
(the Redis client code is not part of this repository). -/
def existsKey (s : Store) (k : String) : Bool := (s k).isSome

/-- Modelled from the spec: the store primitive `setDocument(key, path, value)`
at the root path — whole-value set, creating the key if absent. -/
def setDocument (s : Store) (k : String) (v : Json) : Store :=
  fun q => if q = k then some v else s q

/-- Modelled from the spec: the store primitive `appendToArray(key, path, value)`
at the root path — atomically appends to an existing array.  Its behaviour on
an absent key or a non-array document is left unspecified by the spec and is
modelled as a no-op; the operations never reach that case. -/
def appendToArray (s : Store) (k : String) (v : Json) : Store :=
  match s k with
  | some (Json.arr xs) => setDocument s k (Json.arr (xs ++ [v]))
  | _ => s

/-- Modelled from the spec: the store primitive
`removeFromArray(key, path, index) -> JSON | null` at the root path —
atomically removes and returns the element at the (0-based) index, or null
when the key is absent or the index is out of range. -/
def removeFromArray (s : Store) (k : String) (i : Int) : Option Json × Store :=
  match s k with
  | some (Json.arr xs) =>
    if 0 ≤ i then
      match xs[i.toNat]? with
      | some v =>
        (some v, setDocument s k (Json.arr (xs.take i.toNat ++ xs.drop (i.toNat + 1))))
      | none => (none, s)
    else (none, s)
  | _ => (none, s)

/-- Modelled from the spec: the store primitive `getDocument(key, path)` at the
root path — the store wraps a root-level read in an enclosing array of matches;
the result is null when the key is absent or the document at the key is null. -/
def getDocument (s : Store) (k : String) : Option (List Json) :=
  match s k with
  | none => none
  | some Json.null => none
  | some j => some [j]

/-- One call to a store primitive, as observed at the store boundary. -/
inductive StoreCall where
  | existsCall (key : String) : StoreCall
  | setCall (key : String) (v : Json) : StoreCall
  | appendCall (key : String) (v : Json) : StoreCall
  | popCall (key : String) (index : Int) : StoreCall
  | getCall (key : String) : StoreCall

/-- One content item of a tool response: `{ type: "text", text: ... }`. -/
structure TextContent where
  type : String
  text : String
deriving DecidableEq

/-- A tool response, `{ content: [...] }`, as returned by the remember and
forget handlers. -/
structure ToolResponse where
  content : List TextContent
deriving DecidableEq

/-- One content item of a resource response.  The `text` field holds the JSON
value whose serialization the source sends (`JSON.stringify(...)`); the
embedding keeps the value itself rather than its string rendering. -/
structure RecallContent where
  uri : String
  mimeType : String
  text : Json

/-- A resource response, `{ contents: [...] }`, as returned by the recall
handler. -/
structure ResourceResponse where
  contents : List RecallContent

mutual

/-- JavaScript string interpolation of a JSON value, as in the template
`Removed memory item at index ... about: ...` applied to the popped element
(always a string in reachable states). -/
def jsDisplay : Json → String
  | Json.null => "null"
  | Json.bool b => if b then "true" else "false"
  | Json.num n => toString n
  | Json.str s => s
  | Json.arr xs => jsDisplayList xs
  | Json.obj _ => "[object Object]"

/-- JavaScript rendering of an array of JSON values: comma-joined elements. -/
def jsDisplayList : List Json → String
  | [] => ""
  | [x] => jsDisplay x
  | x :: xs => jsDisplay x ++ "," ++ jsDisplayList xs

end

/-- The fixed guest response of the remember and forget handlers. -/
def guestToolResponse : ToolResponse :=
  ⟨[⟨"text", "Memory feature is not available for guest users."⟩]⟩

/-- The fixed guest response of the recall handler:
`{"error": "User not found"}`. -/
def guestRecallResponse (uriHref : String) : ResourceResponse :=
  ⟨[⟨uriHref, "application/json", Json.obj [("error", Json.str "User not found")]⟩]⟩

/-- Successful remember response text. -/
def rememberSuccess (record ts : String) : ToolResponse :=
  ⟨[⟨"text", s!"Stored memory about: {record} on {ts} UTC"⟩]⟩

/-- Remember store-error response text. -/
def rememberErrorResponse (m : String) : ToolResponse :=
  ⟨[⟨"text", s!"Error storing memory item: {m}"⟩]⟩

/-- Successful forget response text, carrying the removed record. -/
def removedResponse (i : Int) (t : String) : ToolResponse :=
  ⟨[⟨"text", s!"Removed memory item at index {i} about: {t}"⟩]⟩

/-- Forget miss response text: a normal empty-result outcome. -/
def notFoundResponse (i : Int) : ToolResponse :=
  ⟨[⟨"text", s!"No memory item found at index {i}."⟩]⟩

/-- Forget store-error response text. -/
def forgetErrorResponse (i : Int) (m : String) : ToolResponse :=
  ⟨[⟨"text", s!"Error removing memory item {i}: {m}"⟩]⟩

/-- Recall success response. -/
def recallOkResponse (uriHref : String) (data : Json) : ResourceResponse :=
  ⟨[⟨uriHref, "application/json", data⟩]⟩

/-- Recall store-error response: `{"error": ...}` at the hard-coded resource
uri used in the catch branch of the source. -/
def recallErrorResponse (m : String) : ResourceResponse :=
  ⟨[⟨"resource://memory.recall", "application/json", Json.obj [("error", Json.str m)]⟩]⟩

/-- Failure oracle under which every store call succeeds. -/
def noFail : Nat → Option String := fun _ => none

/-- Failure oracle under which the n-th store call of an operation throws with
message m and every other call succeeds. -/
def failAt (n : Nat) (m : String) : Nat → Option String :=
  fun q => if q = n then some m else none

/-- The write phase of Append, from the source: if the existence check
observed `true`, append to the array, else initialize the document with a
one-element array. -/
def rememberWrite (s : Store) (key record : String) (ex : Bool) : Store :=
  if ex then appendToArray s key (Json.str record)
  else setDocument s key (Json.arr [Json.str record])

/-- Append, from the try block of the `memory.remember` handler:
check existence, then append or initialize, then render the confirmation.
The oracle `fails` injects store-layer errors (call 0 is the existence check,
call 1 the write); a thrown call is recorded in the trace, leaves the store
unchanged, and control transfers to the catch branch.  Returns the response,
the resulting store, and the trace of attempted store calls. -/
def appendOp (fails : Nat → Option String) (key record ts : String) (s : Store) :
    ToolResponse × Store × List StoreCall :=
  match fails 0 with
  | some m => (rememberErrorResponse m, s, [StoreCall.existsCall key])
  | none =>
    let ex := existsKey s key
    let writeCall : StoreCall :=
      if ex then StoreCall.appendCall key (Json.str record)
      else StoreCall.setCall key (Json.arr [Json.str record])
    match fails 1 with
    | some m => (rememberErrorResponse m, s, [StoreCall.existsCall key, writeCall])
    | none =>
      (rememberSuccess record ts, rememberWrite s key record ex,
        [StoreCall.existsCall key, writeCall])

/-- RemoveAt, from the try block of the `memory.forget` handler: one
`arrpop` call (call 0 of the oracle), success when it returns a value, a
"not found" response when it returns null, the catch branch on a store
error. -/
def removeAtOp (fails : Nat → Option String) (key : String) (index : Int) (s : Store) :
    ToolResponse × Store × List StoreCall :=
  match fails 0 with
  | some m => (forgetErrorResponse index m, s, [StoreCall.popCall key index])
  | none =>
    match removeFromArray s key index with
    | (some v, s2) => (removedResponse index (jsDisplay v), s2, [StoreCall.popCall key index])
    | (none, s2) => (notFoundResponse index, s2, [StoreCall.popCall key index])

/-- Recall, from the try block of the `memory.recall` handler: one
`json.get` call (call 0 of the oracle); a null result (absent key or null
document) yields the empty array, otherwise the sole element of the match
wrapper; the catch branch on a store error. -/
def recallOp (fails : Nat → Option String) (key uriHref : String) (s : Store) :
    ResourceResponse × List StoreCall :=
  match fails 0 with
  | some m => (recallErrorResponse m, [StoreCall.getCall key])
  | none =>
    let memoryData : Json :=
      match getDocument s key with
      | some ms => ms.headD Json.null
      | none => Json.arr []
    (recallOkResponse uriHref memoryData, [StoreCall.getCall key])

/-- The `memory.remember` handler: guest check (a missing or empty identity
is falsy), then Append on the derived key. -/
def rememberHandler (fails : Nat → Option String) (user : Option String)
    (record ts : String) (s : Store) : ToolResponse × Store × List StoreCall :=
  match user with
  | none => (guestToolResponse, s, [])
  | some u =>
    if u = "" then (guestToolResponse, s, [])
    else appendOp fails (getMemoryKey u) record ts s

/-- The `memory.forget` handler: guest check, then RemoveAt on the derived
key. -/
def forgetHandler (fails : Nat → Option String) (user : Option String)
    (index : Int) (s : Store) : ToolResponse × Store × List StoreCall :=
  match user with
  | none => (guestToolResponse, s, [])
  | some u =>
    if u = "" then (guestToolResponse, s, [])
    else removeAtOp fails (getMemoryKey u) index s

/-- The `memory.recall` handler: guest check, then Recall on the derived
key.  Recall performs no writes, so only the response and the trace are
returned. -/
def recallHandler (fails : Nat → Option String) (user : Option String)
    (uriHref : String) (s : Store) : ResourceResponse × List StoreCall :=
  match user with
  | none => (guestRecallResponse uriHref, [])
  | some u =>
    if u = "" then (guestRecallResponse uriHref, [])
    else recallOp fails (getMemoryKey u) uriHref s

/-- Sequentially append the records rs, in order, with no store failures. -/
def appendAll (key ts : String) (rs : List String) (s : Store) : Store :=
  rs.foldl (fun st r => (appendOp noFail key r ts st).2.1) s

/-- One operation against a fixed key, with its failure oracle; used to
describe the reachable states of that key. -/
inductive MemOp where
  | remember (record ts : String) (fails : Nat → Option String) : MemOp
  | forget (index : Int) (fails : Nat → Option String) : MemOp

/-- The store after running one operation against the key. -/
def applyOp (key : String) (s : Store) : MemOp → Store
  | MemOp.remember r ts f => (appendOp f key r ts s).2.1
  | MemOp.forget i f => (removeAtOp f key i s).2.1

/-- Stores reachable at a key: the key starts absent and is mutated only by
Append and RemoveAt operations (possibly failing ones). -/
inductive Reachable (key : String) : Store → Prop where
  | init (s : Store) : s key = none → Reachable key s
  | step (s : Store) (op : MemOp) : Reachable key s → Reachable key (applyOp key s op)

/-! ### Helper lemmas -/

theorem setDocument_self (s : Store) (k : String) (v : Json) :
    setDocument s k v k = some v := by
  simp [setDocument]

theorem setDocument_other (s : Store) (k q : String) (v : Json) (h : q ≠ k) :
    setDocument s k v q = s q := by
  simp [setDocument, h]

theorem appendOp_store_absent (key r ts : String) (s : Store) (h : s key = none) :
    (appendOp noFail key r ts s).2.1 = setDocument s key (Json.arr [Json.str r]) := by
  simp [appendOp, noFail, rememberWrite, existsKey, h]

theorem appendOp_store_present (key r ts : String) (s : Store) (xs : List Json)
    (h : s key = some (Json.arr xs)) :
    (appendOp noFail key r ts s).2.1 = setDocument s key (Json.arr (xs ++ [Json.str r])) := by
  simp [appendOp, noFail, rememberWrite, existsKey, appendToArray, h]

theorem appendAll_present (key ts : String) (rs : List String) (s : Store) (xs : List Json)
    (h : s key = some (Json.arr xs)) :
    (appendAll key ts rs s) key = some (Json.arr (xs ++ rs.map Json.str)) := by
  induction rs generalizing s xs with
  | nil => simpa [appendAll] using h
  | cons r rs ih =>
    have h2 : (appendOp noFail key r ts s).2.1 key = some (Json.arr (xs ++ [Json.str r])) := by
      rw [appendOp_store_present key r ts s xs h, setDocument_self]
    have h3 := ih ((appendOp noFail key r ts s).2.1) (xs ++ [Json.str r]) h2
    simpa [appendAll, List.append_assoc] using h3

theorem recallOp_of_arr (key uriHref : String) (s : Store) (xs : List Json)
    (h : s key = some (Json.arr xs)) :
    recallOp noFail key uriHref s =
      (recallOkResponse uriHref (Json.arr xs), [StoreCall.getCall key]) := by
  simp [recallOp, noFail, getDocument, h]

/-! ### Claims -/

/-- Claim C1: appending records r1, ..., rn in order via Append to a fresh
(absent) key, with no intervening RemoveAt, and then performing Recall on
that key yields exactly the list [r1, ..., rn] in insertion order. -/
theorem c1_append_then_recall (key ts uriHref : String) (rs : List String) (s : Store)
    (h : s key = none) :
    (recallOp noFail key uriHref (appendAll key ts rs s)).1 =
      recallOkResponse uriHref (Json.arr (rs.map Json.str)) := by
  cases rs with
  | nil =>
    simp [appendAll, recallOp, noFail, getDocument, h, recallOkResponse]
  | cons r rs =>
    have h1 : (appendOp noFail key r ts s).2.1 key = some (Json.arr [Json.str r]) := by
      rw [appendOp_store_absent key r ts s h, setDocument_self]
    have h2 := appendAll_present key ts rs ((appendOp noFail key r ts s).2.1) [Json.str r] h1
    have h3 : (appendAll key ts (r :: rs) s) key =
        some (Json.arr ((r :: rs).map Json.str)) := by
      simpa [appendAll] using h2
    rw [recallOp_of_arr key uriHref _ _ h3]

theorem c1_append_then_recall_witness :
    emptyStore "memory:alice" = none ∧
      (recallOp noFail "memory:alice" "resource://memory.recall"
          (appendAll "memory:alice" "2026-10-12T00:00:00.000Z"
            ["likes tea", "works at Acme"] emptyStore)).1 =
        recallOkResponse "resource://memory.recall"
          (Json.arr [Json.str "likes tea", Json.str "works at Acme"]) :=
  ⟨rfl, c1_append_then_recall "memory:alice" "2026-10-12T00:00:00.000Z"
    "resource://memory.recall" ["likes tea", "works at Acme"] emptyStore rfl⟩

/-- Claim C2: removing index i from a present list of length n with
0 ≤ i < n succeeds, returns the text of the element that was at position i,
leaves a list of length n-1 in which all elements after position i are
shifted down by one, and a subsequent Recall reflects exactly this shortened
list. -/
theorem c2_removeAt_then_recall (key uriHref : String) (i : Nat) (xs : List String)
    (s : Store) (hk : s key = some (Json.arr (xs.map Json.str))) (hi : i < xs.length) :
    (removeAtOp noFail key (Int.ofNat i) s).1 = removedResponse (Int.ofNat i) xs[i] ∧
    (removeAtOp noFail key (Int.ofNat i) s).2.1 key =
      some (Json.arr ((xs.take i ++ xs.drop (i + 1)).map Json.str)) ∧
    (xs.take i ++ xs.drop (i + 1)).length = xs.length - 1 ∧
    (recallOp noFail key uriHref (removeAtOp noFail key (Int.ofNat i) s).2.1).1 =
      recallOkResponse uriHref (Json.arr ((xs.take i ++ xs.drop (i + 1)).map Json.str)) := by
  have hx : xs[i]? = some xs[i] := List.getElem?_eq_getElem hi
  have hst : (removeAtOp noFail key (Int.ofNat i) s).2.1 key =
      some (Json.arr ((xs.take i ++ xs.drop (i + 1)).map Json.str)) := by
    simp [removeAtOp, noFail, removeFromArray, hk, hx, Int.toNat_ofNat,
      setDocument_self, List.map_take, List.map_drop]
  refine ⟨?_, hst, ?_, ?_⟩
  · simp [removeAtOp, noFail, removeFromArray, hk, hx, jsDisplay]
  · simp [List.length_take, List.length_drop]
    omega
  · rw [recallOp_of_arr key uriHref _ _ hst]

theorem c2_removeAt_then_recall_witness :
    (setDocument emptyStore "memory:alice"
        (Json.arr (["a", "b", "c"].map Json.str)) "memory:alice" =
      some (Json.arr (["a", "b", "c"].map Json.str))) ∧ 1 < 3 ∧
    ((removeAtOp noFail "memory:alice" (Int.ofNat 1)
        (setDocument emptyStore "memory:alice"
          (Json.arr (["a", "b", "c"].map Json.str)))).1 =
      removedResponse (Int.ofNat 1) (["a", "b", "c"] : List String)[1] ∧
    (removeAtOp noFail "memory:alice" (Int.ofNat 1)
        (setDocument emptyStore "memory:alice"
          (Json.arr (["a", "b", "c"].map Json.str)))).2.1 "memory:alice" =
      some (Json.arr ((["a", "b", "c"].take 1 ++ ["a", "b", "c"].drop 2).map Json.str)) ∧
    (["a", "b", "c"].take 1 ++ ["a", "b", "c"].drop 2).length = (["a", "b", "c"] : List String).length - 1 ∧
    (recallOp noFail "memory:alice" "resource://memory.recall"
        (removeAtOp noFail "memory:alice" (Int.ofNat 1)
          (setDocument emptyStore "memory:alice"
            (Json.arr (["a", "b", "c"].map Json.str)))).2.1).1 =
      recallOkResponse "resource://memory.recall"
        (Json.arr ((["a", "b", "c"].take 1 ++ ["a", "b", "c"].drop 2).map Json.str))) :=
  ⟨rfl, by decide,
    c2_removeAt_then_recall "memory:alice" "resource://memory.recall" 1 ["a", "b", "c"]
      (setDocument emptyStore "memory:alice" (Json.arr (["a", "b", "c"].map Json.str)))
      rfl (by decide)⟩

/-- Claim C3: RemoveAt on an absent key, or with an index outside the bounds
of the present list, returns exactly the normal "not found at index" result
with the store unchanged — not a store-error result and not an uncaught
fault (the operation is total and its single pop call is the whole trace). -/
theorem c3_removeAt_not_found (key : String) (i : Int) (xs : List Json) (s : Store)
    (h : s key = none ∨
      (s key = some (Json.arr xs) ∧ (i < 0 ∨ (xs.length : Int) ≤ i))) :
    removeAtOp noFail key i s = (notFoundResponse i, s, [StoreCall.popCall key i]) := by
  rcases h with h | ⟨h, hout⟩
  · simp [removeAtOp, noFail, removeFromArray, h]
  · rcases hout with hneg | hge
    · have : ¬ (0 ≤ i) := by omega
      simp [removeAtOp, noFail, removeFromArray, h, this]
    · have h0 : 0 ≤ i := by omega
      have hlen : xs.length ≤ i.toNat := by omega
      have : xs[i.toNat]? = none := List.getElem?_eq_none hlen
      simp [removeAtOp, noFail, removeFromArray, h, h0, this]

theorem c3_removeAt_not_found_witness :
    (emptyStore "memory:alice" = none ∨
      (emptyStore "memory:alice" = some (Json.arr []) ∧
        ((7 : Int) < 0 ∨ (([] : List Json).length : Int) ≤ 7))) ∧
    removeAtOp noFail "memory:alice" 7 emptyStore =
      (notFoundResponse 7, emptyStore, [StoreCall.popCall "memory:alice" 7]) :=
  ⟨Or.inl rfl, c3_removeAt_not_found "memory:alice" 7 [] emptyStore (Or.inl rfl)⟩

/-- Claim C4: in the interleaving where two Append calls for the same absent
key both run their existence check before either write, both checks observe
"does not exist", so both write phases execute the initializing setDocument;
the second write overwrites the first, and a subsequent Recall returns the
one-element list holding only the later record — the first record is lost. -/
theorem c4_lost_update_race (key rA rB uriHref : String) (s : Store)
    (h : s key = none) (hne : rA ≠ rB) :
    existsKey s key = false ∧
    rememberWrite s key rA (existsKey s key) key = some (Json.arr [Json.str rA]) ∧
    rememberWrite (rememberWrite s key rA (existsKey s key)) key rB (existsKey s key) key =
      some (Json.arr [Json.str rB]) ∧
    (recallOp noFail key uriHref
        (rememberWrite (rememberWrite s key rA (existsKey s key)) key rB (existsKey s key))).1 =
      recallOkResponse uriHref (Json.arr [Json.str rB]) ∧
    Json.str rA ∉ [Json.str rB] := by
  have hex : existsKey s key = false := by simp [existsKey, h]
  have h1 : rememberWrite s key rA (existsKey s key) key = some (Json.arr [Json.str rA]) := by
    rw [hex]
    simp [rememberWrite, setDocument_self]
  have h2 : rememberWrite (rememberWrite s key rA (existsKey s key)) key rB
      (existsKey s key) key = some (Json.arr [Json.str rB]) := by
    rw [hex]
    simp [rememberWrite, setDocument_self]
  refine ⟨hex, h1, h2, ?_, ?_⟩
  · rw [recallOp_of_arr key uriHref _ _ h2]
  · simp [hne]

theorem c4_lost_update_race_witness :
    emptyStore "memory:alice" = none ∧ "tea" ≠ "coffee" ∧
    (existsKey emptyStore "memory:alice" = false ∧
      rememberWrite emptyStore "memory:alice" "tea"
          (existsKey emptyStore "memory:alice") "memory:alice" =
        some (Json.arr [Json.str "tea"]) ∧
      rememberWrite
          (rememberWrite emptyStore "memory:alice" "tea" (existsKey emptyStore "memory:alice"))
          "memory:alice" "coffee" (existsKey emptyStore "memory:alice") "memory:alice" =
        some (Json.arr [Json.str "coffee"]) ∧
      (recallOp noFail "memory:alice" "resource://memory.recall"
          (rememberWrite
            (rememberWrite emptyStore "memory:alice" "tea" (existsKey emptyStore "memory:alice"))
            "memory:alice" "coffee" (existsKey emptyStore "memory:alice"))).1 =
        recallOkResponse "resource://memory.recall" (Json.arr [Json.str "coffee"]) ∧
      Json.str "tea" ∉ [Json.str "coffee"]) :=
  ⟨rfl, by decide,
    c4_lost_update_race "memory:alice" "tea" "coffee" "resource://memory.recall"
      emptyStore rfl (by decide)⟩

/-- Claim C5: Recall on an absent key, or on a null document at the key,
returns the empty sequence as a normal success result (at the caller's uri),
never an error result. -/
theorem c5_recall_absent_empty (key uriHref : String) (s : Store)
    (h : s key = none ∨ s key = some Json.null) :
    recallOp noFail key uriHref s =
      (recallOkResponse uriHref (Json.arr []), [StoreCall.getCall key]) := by
  rcases h with h | h <;> simp [recallOp, noFail, getDocument, h]

theorem c5_recall_absent_empty_witness :
    (emptyStore "memory:alice" = none ∨ emptyStore "memory:alice" = some Json.null) ∧
    recallOp noFail "memory:alice" "resource://memory.recall" emptyStore =
      (recallOkResponse "resource://memory.recall" (Json.arr []),
        [StoreCall.getCall "memory:alice"]) :=
  ⟨Or.inl rfl,
    c5_recall_absent_empty "memory:alice" "resource://memory.recall" emptyStore (Or.inl rfl)⟩

/-- Claim C6: for a guest caller (absent identity), each of the three
handlers returns its fixed guest response, performs zero store calls
(an empty trace), and leaves the store unchanged, for every input shape and
every failure oracle. -/
theorem c6_guest_no_store_calls (fails : Nat → Option String) (record ts uriHref : String)
    (i : Int) (s : Store) :
    rememberHandler fails none record ts s = (guestToolResponse, s, []) ∧
    forgetHandler fails none i s = (guestToolResponse, s, []) ∧
    recallHandler fails none uriHref s = (guestRecallResponse uriHref, []) :=
  ⟨rfl, rfl, rfl⟩

/-- Claim C7: a store-primitive failure during Append, RemoveAt or Recall is
caught at the point of the call and converted into the textual error payload
carrying the underlying message; the operation still returns a well-formed
response with the store unchanged, and the trace stops at the failing call
(no retry).  Both failure points of Append (the existence check, call 0, and
the write, call 1) are covered. -/
theorem c7_store_errors_caught (key record ts uriHref m : String) (i : Int) (s : Store) :
    appendOp (failAt 0 m) key record ts s =
      (rememberErrorResponse m, s, [StoreCall.existsCall key]) ∧
    appendOp (failAt 1 m) key record ts s =
      (rememberErrorResponse m, s,
        [StoreCall.existsCall key,
          if existsKey s key then StoreCall.appendCall key (Json.str record)
          else StoreCall.setCall key (Json.arr [Json.str record])]) ∧
    removeAtOp (failAt 0 m) key i s =
      (forgetErrorResponse i m, s, [StoreCall.popCall key i]) ∧
    recallOp (failAt 0 m) key uriHref s =
      (recallErrorResponse m, [StoreCall.getCall key]) :=
  ⟨rfl, rfl, rfl, rfl⟩

theorem applyOp_key_cases (key : String) (s : Store) (op : MemOp) :
    applyOp key s op key = s key ∨
    ∃ xs : List Json, applyOp key s op key = some (Json.arr xs) := by
  cases op with
  | remember r ts f =>
    cases hf0 : f 0 with
    | some m => left; simp [applyOp, appendOp, hf0]
    | none =>
      cases hf1 : f 1 with
      | some m => left; simp [applyOp, appendOp, hf0, hf1]
      | none =>
        have hw : applyOp key s (MemOp.remember r ts f) =
            rememberWrite s key r (existsKey s key) := by
          simp [applyOp, appendOp, hf0, hf1]
        rw [hw]
        by_cases hex : existsKey s key = true
        · rw [hex]
          cases hsk : s key with
          | none => left; simp [rememberWrite, appendToArray, hsk]
          | some d =>
            cases d with
            | arr xs =>
              right
              refine ⟨xs ++ [Json.str r], ?_⟩
              simp [rememberWrite, appendToArray, hsk, setDocument_self]
            | null => left; simp [rememberWrite, appendToArray, hsk]
            | bool b => left; simp [rememberWrite, appendToArray, hsk]
            | num n => left; simp [rememberWrite, appendToArray, hsk]
            | str t => left; simp [rememberWrite, appendToArray, hsk]
            | obj fs => left; simp [rememberWrite, appendToArray, hsk]
        · rw [Bool.not_eq_true] at hex
          rw [hex]
          right
          exact ⟨[Json.str r], by simp [rememberWrite, setDocument_self]⟩
  | forget i f =>
    cases hf0 : f 0 with
    | some m => left; simp [applyOp, removeAtOp, hf0]
    | none =>
      cases hsk : s key with
      | none => left; simp [applyOp, removeAtOp, hf0, removeFromArray, hsk]
      | some d =>
        cases d with
        | arr xs =>
          by_cases hi : 0 ≤ i
          · cases hv : xs[i.toNat]? with
            | some v =>
              right
              refine ⟨xs.take i.toNat ++ xs.drop (i.toNat + 1), ?_⟩
              simp [applyOp, removeAtOp, hf0, removeFromArray, hsk, hi, hv, setDocument_self]
            | none => left; simp [applyOp, removeAtOp, hf0, removeFromArray, hsk, hi, hv]
          · left; simp [applyOp, removeAtOp, hf0, removeFromArray, hsk, hi]
        | null => left; simp [applyOp, removeAtOp, hf0, removeFromArray, hsk]
        | bool b => left; simp [applyOp, removeAtOp, hf0, removeFromArray, hsk]
        | num n => left; simp [applyOp, removeAtOp, hf0, removeFromArray, hsk]
        | str t => left; simp [applyOp, removeAtOp, hf0, removeFromArray, hsk]
        | obj fs => left; simp [applyOp, removeAtOp, hf0, removeFromArray, hsk]

theorem reachable_arrayOrAbsent (key : String) (s : Store) (h : Reachable key s) :
    ∀ j, s key = some j → ∃ xs : List Json, j = Json.arr xs := by
  induction h with
  | init s h0 =>
    intro j hj
    rw [h0] at hj
    exact absurd hj (by simp)
  | step s op hr ih =>
    intro j hj
    rcases applyOp_key_cases key s op with hc | ⟨xs, hc⟩
    · rw [hc] at hj
      exact ih j hj
    · rw [hc] at hj
      injection hj with hj2
      exact ⟨xs, hj2.symm⟩

/-- Claim C8: for every reachable state of a user's key, the stored value
(when the key exists) is a JSON array; no operation (even a failing one)
ever moves a present key back to absent; Append moves an absent key to the
one-element array and appends at the tail of a present array; and RemoveAt
leaves the key present with an array value, even when the array becomes
empty. -/
theorem c8_state_machine (u : String) (s : Store) (h : Reachable (getMemoryKey u) s) :
    (∀ j, s (getMemoryKey u) = some j → ∃ xs : List Json, j = Json.arr xs) ∧
    (∀ op : MemOp, s (getMemoryKey u) ≠ none →
      applyOp (getMemoryKey u) s op (getMemoryKey u) ≠ none) ∧
    (∀ r ts, s (getMemoryKey u) = none →
      applyOp (getMemoryKey u) s (MemOp.remember r ts noFail) (getMemoryKey u) =
        some (Json.arr [Json.str r])) ∧
    (∀ r ts xs, s (getMemoryKey u) = some (Json.arr xs) →
      applyOp (getMemoryKey u) s (MemOp.remember r ts noFail) (getMemoryKey u) =
        some (Json.arr (xs ++ [Json.str r]))) ∧
    (∀ i xs, s (getMemoryKey u) = some (Json.arr xs) →
      ∃ ys : List Json,
        applyOp (getMemoryKey u) s (MemOp.forget i noFail) (getMemoryKey u) =
          some (Json.arr ys)) := by
  refine ⟨reachable_arrayOrAbsent (getMemoryKey u) s h, ?_, ?_, ?_, ?_⟩
  · intro op hpres
    rcases applyOp_key_cases (getMemoryKey u) s op with hc | ⟨xs, hc⟩
    · rw [hc]; exact hpres
    · rw [hc]; simp
  · intro r ts h0
    show (appendOp noFail (getMemoryKey u) r ts s).2.1 (getMemoryKey u) = _
    rw [appendOp_store_absent _ _ _ _ h0, setDocument_self]
  · intro r ts xs hx
    show (appendOp noFail (getMemoryKey u) r ts s).2.1 (getMemoryKey u) = _
    rw [appendOp_store_present _ _ _ _ _ hx, setDocument_self]
  · intro i xs hx
    rcases applyOp_key_cases (getMemoryKey u) s (MemOp.forget i noFail) with hc | ⟨ys, hc⟩
    · exact ⟨xs, hc.trans hx⟩
    · exact ⟨ys, hc⟩

theorem c8_state_machine_witness :
    Reachable (getMemoryKey "alice") emptyStore ∧
    ((∀ j, emptyStore (getMemoryKey "alice") = some j → ∃ xs : List Json, j = Json.arr xs) ∧
    (∀ op : MemOp, emptyStore (getMemoryKey "alice") ≠ none →
      applyOp (getMemoryKey "alice") emptyStore op (getMemoryKey "alice") ≠ none) ∧
    (∀ r ts, emptyStore (getMemoryKey "alice") = none →
      applyOp (getMemoryKey "alice") emptyStore (MemOp.remember r ts noFail)
          (getMemoryKey "alice") =
        some (Json.arr [Json.str r])) ∧
    (∀ r ts xs, emptyStore (getMemoryKey "alice") = some (Json.arr xs) →
      applyOp (getMemoryKey "alice") emptyStore (MemOp.remember r ts noFail)
          (getMemoryKey "alice") =
        some (Json.arr (xs ++ [Json.str r]))) ∧
    (∀ i xs, emptyStore (getMemoryKey "alice") = some (Json.arr xs) →
      ∃ ys : List Json,
        applyOp (getMemoryKey "alice") emptyStore (MemOp.forget i noFail)
            (getMemoryKey "alice") =
          some (Json.arr ys))) :=
  ⟨Reachable.init emptyStore rfl,
    c8_state_machine "alice" emptyStore (Reachable.init emptyStore rfl)⟩

/-- A concrete store holding the two-element list ["a", "b"] at the key of
user alice; counterexample input for claim C9. -/
def twoItemStore : Store :=
  setDocument emptyStore "memory:alice" (Json.arr [Json.str "a", Json.str "b"])

/-- Claim C9 counterexample: on the present list ["a", "b"], RemoveAt(-1)
does not remove and return the last element as a success.  Under the store
contract (0-based positions; null when the index is out of range) it yields
the not-found result and leaves the list unchanged. -/
theorem c9_negative_index_counterexample :
    (removeAtOp noFail "memory:alice" (-1) twoItemStore).1 ≠ removedResponse (-1) "b" ∧
    removeAtOp noFail "memory:alice" (-1) twoItemStore =
      (notFoundResponse (-1), twoItemStore, [StoreCall.popCall "memory:alice" (-1)]) := by
  exact ⟨by decide, rfl⟩

/-- Claim C9 amended: RemoveAt passes a negative index unchecked to the
store's array-pop primitive (the raw index appears in the pop call of the
trace), but under the store contract of the spec — indices are 0-based
positions and an out-of-range index yields null — a negative index is out of
range, so RemoveAt with a negative index returns the not-found result and
leaves the list unchanged, rather than removing the last element. -/
theorem c9_negative_index_not_found (key : String) (i : Int) (xs : List Json) (s : Store)
    (hk : s key = some (Json.arr xs)) (hi : i < 0) :
    removeAtOp noFail key i s = (notFoundResponse i, s, [StoreCall.popCall key i]) := by
  have hn : ¬ (0 ≤ i) := by omega
  simp [removeAtOp, noFail, removeFromArray, hk, hn]

theorem c9_negative_index_not_found_witness :
    twoItemStore "memory:alice" = some (Json.arr [Json.str "a", Json.str "b"]) ∧
    (-1 : Int) < 0 ∧
    removeAtOp noFail "memory:alice" (-1) twoItemStore =
      (notFoundResponse (-1), twoItemStore, [StoreCall.popCall "memory:alice" (-1)]) :=
  ⟨rfl, by decide,
    c9_negative_index_not_found "memory:alice" (-1) [Json.str "a", Json.str "b"]
      twoItemStore rfl (by decide)⟩

/-- Claim C10: Append on a key that already exists appends exactly one
element at the tail via the array-append primitive and never issues a
whole-document set: the trace is the existence check followed by the append
call (no set call), the key's value becomes the old array with the record at
the tail (every previously stored element unchanged), and every other key of
the store is unchanged. -/
theorem c10_append_frame (key record ts : String) (s : Store) (xs : List Json)
    (h : s key = some (Json.arr xs)) :
    (appendOp noFail key record ts s).2.2 =
      [StoreCall.existsCall key, StoreCall.appendCall key (Json.str record)] ∧
    (appendOp noFail key record ts s).2.1 key = some (Json.arr (xs ++ [Json.str record])) ∧
    ∀ q, q ≠ key → (appendOp noFail key record ts s).2.1 q = s q := by
  have hex : existsKey s key = true := by simp [existsKey, h]
  refine ⟨?_, ?_, ?_⟩
  · simp [appendOp, noFail, hex]
  · rw [appendOp_store_present key record ts s xs h, setDocument_self]
  · intro q hq
    rw [appendOp_store_present key record ts s xs h, setDocument_other _ _ _ _ hq]

theorem c10_append_frame_witness :
    twoItemStore "memory:alice" = some (Json.arr [Json.str "a", Json.str "b"]) ∧
    ((appendOp noFail "memory:alice" "c" "2026-10-12T00:00:00.000Z" twoItemStore).2.2 =
      [StoreCall.existsCall "memory:alice", StoreCall.appendCall "memory:alice" (Json.str "c")] ∧
    (appendOp noFail "memory:alice" "c" "2026-10-12T00:00:00.000Z" twoItemStore).2.1
        "memory:alice" =
      some (Json.arr [Json.str "a", Json.str "b", Json.str "c"]) ∧
    ∀ q, q ≠ "memory:alice" →
      (appendOp noFail "memory:alice" "c" "2026-10-12T00:00:00.000Z" twoItemStore).2.1 q =
        twoItemStore q) :=
  ⟨rfl,
    c10_append_frame "memory:alice" "c" "2026-10-12T00:00:00.000Z" twoItemStore
      [Json.str "a", Json.str "b"] rfl⟩

end MemoryBank
